import Mathlib

/-!
Verification development for the claude-skills CLI.

This file shallowly embeds the parts of the source that the spec's claims
are about:

* `src/cli/lib/setup-hook.mjs` — `setupHook`: writes the hook script and
  merges a `UserPromptSubmit` hook registration into `.claude/settings.json`.
* `src/cli/lib/github.mjs` — `getAuthHeaders`, `fetchSkills`,
  `parseFrontmatter`: credential resolution, concurrent per-directory
  catalog fetches, and frontmatter parsing with fallbacks.
* `src/unnamed/part_007` — `setupClaudeMd`: idempotently appends the
  `skill_evaluation` rule block to `CLAUDE.md`.

JSON documents are modelled as an inductive `Json` type; JS objects are
association lists in insertion order (`JSON.parse` never yields duplicate
keys; property assignment replaces in place, new keys append at the end).
JS strings are Lean `String`s, except in the text-scanning code
(frontmatter and CLAUDE.md), where `List Char` makes the scanning
algorithms directly recursive.
-/

set_option maxRecDepth 100000

/-- JS `s.endsWith(post)`: `s` ends with the string `post`. -/
def jsEndsWith (s post : String) : Bool := post.data.isSuffixOf s.data

/-- JSON values, as produced by `JSON.parse`.  Objects are association
lists in key-insertion order with pairwise-distinct keys. -/
inductive Json where
  | null
  | bool (b : Bool)
  | num (n : Int)
  | str (s : String)
  | arr (elems : List Json)
  | obj (fields : List (String × Json))

/-- JS property read `o[k]` on a plain object: the value of the (unique)
key `k`, or `none` for `undefined`. -/
def objGet : List (String × Json) → String → Option Json
  | [], _ => none
  | p :: rest, k => if p.1 = k then some p.2 else objGet rest k

/-- JS property write `o[k] = v` on a plain object: replaces the value in
place when the key exists, otherwise appends the new key at the end
(JS insertion order). -/
def objSet : List (String × Json) → String → Json → List (String × Json)
  | [], k, v => [(k, v)]
  | p :: rest, k, v => if p.1 = k then (k, v) :: rest else p :: objSet rest k v

theorem objGet_objSet_self (l : List (String × Json)) (k : String) (v : Json) :
    objGet (objSet l k v) k = some v := by
  induction l with
  | nil => simp [objGet, objSet]
  | cons p rest ih =>
    by_cases h : p.1 = k
    · simp [objGet, objSet, h]
    · simp [objGet, objSet, h, ih]

theorem objGet_objSet_ne (l : List (String × Json)) (k k' : String) (v : Json)
    (h : k' ≠ k) : objGet (objSet l k v) k' = objGet l k' := by
  induction l with
  | nil => simp [objGet, objSet, Ne.symm h]
  | cons p rest ih =>
    by_cases hp : p.1 = k
    · have h1 : k ≠ k' := Ne.symm h
      have h2 : p.1 ≠ k' := by rw [hp]; exact h1
      simp [objGet, objSet, hp, h1, h2]
    · simp [objGet, objSet, hp, ih]

theorem objSet_objSet (l : List (String × Json)) (k : String) (v w : Json) :
    objSet (objSet l k v) k w = objSet l k w := by
  induction l with
  | nil => simp [objSet]
  | cons p rest ih =>
    by_cases h : p.1 = k
    · simp [objSet, h]
    · simp [objSet, h, ih]

/-! ## Host Settings Patcher — `setupHook`, `src/cli/lib/setup-hook.mjs`

`setupHook` (lines 45–91): writes the hook script, reads
`.claude/settings.json` (treating a missing *or unparsable* file as `{}`,
lines 57–63), ensures a `hooks` object, appends a `UserPromptSubmit`
entry unless some existing entry's command already ends with the hook
filename (lines 65–83), and finally — unconditionally — writes the full
settings document back (lines 85–87).  `src/unnamed/part_008` contains
the same `UserPromptSubmit` logic (its lines 76–108). -/

/-- The entry pushed by `setupHook`:
`{ hooks: [{ type: "command", command: hookPath }] }` (lines 69–71). -/
def hookEntryJson (hookPath : String) : Json :=
  Json.obj [("hooks", Json.arr
    [Json.obj [("type", Json.str "command"), ("command", Json.str hookPath)]])]

/-- `(h) => h.command?.endsWith(HOOK_FILENAME)` (line 76) as a Boolean on
the already-parsed JSON value `h`.  Non-object `h`, or a non-string
`command`, yields `false` (the optional chain short-circuits on a missing
or nullish `command`; see `cmdOk` for the values on which the source
itself would not throw). -/
def cmdMatches (fname : String) : Json → Bool
  | Json.obj kvs =>
    match objGet kvs "command" with
    | some (Json.str c) => jsEndsWith c fname
    | _ => false
  | _ => false

/-- `(entry) => entry.hooks?.some((h) => h.command?.endsWith(...))`
(lines 75–77). -/
def entryMatches (fname : String) : Json → Bool
  | Json.obj kvs =>
    match objGet kvs "hooks" with
    | some (Json.arr hs) => hs.any (cmdMatches fname)
    | _ => false
  | _ => false

/-- Values `h` of the inner hooks array on which the source's
`h.command?.endsWith(...)` does not throw a `TypeError`: anything but
`null`, provided a present `command` is `null` or a string. -/
def cmdOk : Json → Bool
  | Json.null => false
  | Json.obj kvs =>
    match objGet kvs "command" with
    | none => true
    | some Json.null => true
    | some (Json.str _) => true
    | some _ => false
  | _ => true

/-- Entries on which the source's `entry.hooks?.some(...)` does not throw:
anything but `null`, provided a present `hooks` is `null` or an array of
`cmdOk` values. -/
def entryOk : Json → Bool
  | Json.null => false
  | Json.obj kvs =>
    match objGet kvs "hooks" with
    | none => true
    | some Json.null => true
    | some (Json.arr hs) => hs.all cmdOk
    | some _ => false
  | _ => true

/-- Lines 74–83: the new value of `settings.hooks.UserPromptSubmit`.
If the current value is an array, push the new entry unless some entry
already matches; otherwise replace it with a one-entry array. -/
def patchUPS (hookPath fname : String) (v : Option Json) : Json :=
  match v with
  | some (Json.arr entries) =>
    if entries.any (entryMatches fname) then Json.arr entries
    else Json.arr (entries ++ [hookEntryJson hookPath])
  | _ => Json.arr [hookEntryJson hookPath]

/-- Lines 65–83 of `setupHook`, acting on the parsed top-level settings
object.  `if (!settings.hooks) settings.hooks = {}` starts from `{}` when
`hooks` is absent or falsy; when `hooks` is a truthy non-object the
source raises a `TypeError` (strict mode), so the claims' theorems are
restricted to documents where `hooks`, if truthy, is an object
(`wellFormedDoc`). -/
def patchSettingsObj (hookPath fname : String)
    (kvs : List (String × Json)) : List (String × Json) :=
  let hooks0 : List (String × Json) :=
    match objGet kvs "hooks" with
    | some (Json.obj h) => h
    | _ => []
  let ups := patchUPS hookPath fname (objGet hooks0 "UserPromptSubmit")
  objSet kvs "hooks" (Json.obj (objSet hooks0 "UserPromptSubmit" ups))

/-- The `hooks` object of a settings document (`{}` when absent/falsy). -/
def hooksObj (kvs : List (String × Json)) : List (String × Json) :=
  match objGet kvs "hooks" with
  | some (Json.obj h) => h
  | _ => []

/-- The entry array under `hooks.UserPromptSubmit` (`[]` when the key is
absent or not an array). -/
def upsEntries (kvs : List (String × Json)) : List Json :=
  match objGet (hooksObj kvs) "UserPromptSubmit" with
  | some (Json.arr es) => es
  | _ => []

/-- Number of `UserPromptSubmit` entries holding a command that ends with
`fname` — the registrations the source's already-installed scan detects. -/
def countMatching (fname : String) (kvs : List (String × Json)) : Nat :=
  (upsEntries kvs).countP (entryMatches fname)

/-- Settings documents with the structure the spec documents (§6): the
top level is an object, `hooks` is absent or an object, and
`hooks.UserPromptSubmit` is absent or an array of entries on which the
source's scan does not throw. -/
def wellFormedDoc (kvs : List (String × Json)) : Bool :=
  match objGet kvs "hooks" with
  | none => true
  | some (Json.obj h) =>
    match objGet h "UserPromptSubmit" with
    | none => true
    | some (Json.arr es) => es.all entryOk
    | some _ => false
  | some _ => false

/-- The three states `.claude/settings.json` can be in when `setupHook`
runs. -/
inductive SettingsFile where
  | absent
  | invalid (raw : String)
  | valid (doc : List (String × Json))

/-- Lines 57–63: `readFile` + `JSON.parse` inside `try`; any failure
(missing file or parse error) is swallowed and the run continues with
`settings = {}`.  A file parsing to a *non-object* JSON value would make
the later property assignments throw and is outside this model (the spec
documents the file as a top-level object). -/
def readSettings : SettingsFile → List (String × Json)
  | SettingsFile.absent => []
  | SettingsFile.invalid _ => []
  | SettingsFile.valid doc => doc

/-- The file writes `setupHook` performs, in program order:
`writeFile(hookPath, HOOK_SCRIPT)` (line 53) and
`writeFile(settingsPath, JSON.stringify(settings, null, 2) + "\n")`
(lines 85–87). -/
inductive WriteEvent where
  | hookScript
  | settings (doc : List (String × Json))

/-- `setupHook` (lines 45–91) as the sequence of file writes it performs.
It always writes the hook script, then always writes the patched settings
document — there is no early return on the already-installed path. -/
def setupHook (hookPath fname : String) (file : SettingsFile) : List WriteEvent :=
  [WriteEvent.hookScript]
    ++ [WriteEvent.settings (patchSettingsObj hookPath fname (readSettings file))]

/-- The settings documents written to `.claude/settings.json` during a
run. -/
def settingsWrites (ws : List WriteEvent) : List (List (String × Json)) :=
  ws.filterMap (fun w =>
    match w with
    | WriteEvent.settings d => some d
    | _ => none)

/-- The hook path and filename `setupHook` actually uses (lines 43–48);
the path is `<project>/.claude/hooks/` + the filename, so it ends with
the filename. -/
def hookFilename : String := "skill-forced-eval-hook.sh"

def samplePath : String := "/proj/.claude/hooks/skill-forced-eval-hook.sh"

example : jsEndsWith samplePath hookFilename = true := by decide

example :
    patchSettingsObj samplePath hookFilename [] =
      [("hooks", Json.obj [("UserPromptSubmit",
        Json.arr [hookEntryJson samplePath])])] := rfl

/-- `patchSettingsObj` written with `hooksObj`: the source mutates
`settings.hooks` in place and reassigns `settings.hooks.UserPromptSubmit`. -/
theorem patchSettingsObj_eq (hp fn : String) (kvs : List (String × Json)) :
    patchSettingsObj hp fn kvs =
      objSet kvs "hooks" (Json.obj (objSet (hooksObj kvs) "UserPromptSubmit"
        (patchUPS hp fn (objGet (hooksObj kvs) "UserPromptSubmit")))) := rfl

theorem entryMatches_hookEntry (hp fn : String) :
    entryMatches fn (hookEntryJson hp) = jsEndsWith hp fn := by
  simp [entryMatches, hookEntryJson, cmdMatches, objGet]

theorem hooksObj_patch (hp fn : String) (kvs : List (String × Json)) :
    hooksObj (patchSettingsObj hp fn kvs) =
      objSet (hooksObj kvs) "UserPromptSubmit"
        (patchUPS hp fn (objGet (hooksObj kvs) "UserPromptSubmit")) := by
  rw [patchSettingsObj_eq]
  simp [hooksObj, objGet_objSet_self]

theorem upsEntries_patch (hp fn : String) (kvs : List (String × Json)) :
    upsEntries (patchSettingsObj hp fn kvs) =
      (if (upsEntries kvs).any (entryMatches fn) then upsEntries kvs
       else upsEntries kvs ++ [hookEntryJson hp]) := by
  rw [upsEntries, hooksObj_patch, objGet_objSet_self]
  cases hv : objGet (hooksObj kvs) "UserPromptSubmit" with
  | none => simp [patchUPS, upsEntries, hv]
  | some v =>
    cases v with
    | arr es =>
      by_cases hc : es.any (entryMatches fn) = true
      · simp [patchUPS, upsEntries, hv, hc]
      · simp [patchUPS, upsEntries, hv, hc]
    | null => simp [patchUPS, upsEntries, hv]
    | bool b => simp [patchUPS, upsEntries, hv]
    | num n => simp [patchUPS, upsEntries, hv]
    | str s => simp [patchUPS, upsEntries, hv]
    | obj o => simp [patchUPS, upsEntries, hv]

theorem patchUPS_self (hp fn : String) (hend : jsEndsWith hp fn = true)
    (v : Option Json) :
    patchUPS hp fn (some (patchUPS hp fn v)) = patchUPS hp fn v := by
  cases v with
  | none => simp [patchUPS, entryMatches_hookEntry, hend]
  | some w =>
    cases w with
    | arr es =>
      by_cases hc : es.any (entryMatches fn) = true
      · simp [patchUPS, hc]
      · simp [patchUPS, hc, entryMatches_hookEntry, hend]
    | null => simp [patchUPS, entryMatches_hookEntry, hend]
    | bool b => simp [patchUPS, entryMatches_hookEntry, hend]
    | num n => simp [patchUPS, entryMatches_hookEntry, hend]
    | str s => simp [patchUPS, entryMatches_hookEntry, hend]
    | obj o => simp [patchUPS, entryMatches_hookEntry, hend]

/-- The second run's already-installed scan finds the entry the first run
appended, so the second run changes nothing. -/
theorem patch_idem (hp fn : String) (kvs : List (String × Json))
    (hend : jsEndsWith hp fn = true) :
    patchSettingsObj hp fn (patchSettingsObj hp fn kvs) =
      patchSettingsObj hp fn kvs := by
  rw [patchSettingsObj_eq hp fn (patchSettingsObj hp fn kvs)]
  rw [hooksObj_patch, objGet_objSet_self, patchUPS_self hp fn hend, objSet_objSet]
  rw [patchSettingsObj_eq hp fn kvs, objSet_objSet]

/-- After one run, exactly one `UserPromptSubmit` entry matches the hook
filename, provided at most one matched before. -/
theorem countMatching_patch (hp fn : String) (kvs : List (String × Json))
    (hend : jsEndsWith hp fn = true) (hle : countMatching fn kvs ≤ 1) :
    countMatching fn (patchSettingsObj hp fn kvs) = 1 := by
  rw [countMatching, upsEntries_patch]
  rw [countMatching] at hle
  cases hq : (upsEntries kvs).any (entryMatches fn) with
  | true =>
    simp only [hq, if_true]
    have h1 : 0 < (upsEntries kvs).countP (entryMatches fn) := by
      rw [List.countP_pos_iff]
      obtain ⟨a, ha, hpa⟩ := List.any_eq_true.mp hq
      exact ⟨a, ha, hpa⟩
    omega
  | false =>
    simp only [hq, Bool.false_eq_true, if_false]
    rw [List.countP_append]
    have h0 : (upsEntries kvs).countP (entryMatches fn) = 0 := by
      rw [List.countP_eq_zero]
      intro a ha
      exact List.any_eq_false.mp hq a ha
    rw [h0]
    simp [List.countP_cons, entryMatches_hookEntry, hend]

/-! ## Claims C1–C4 — the Host Settings Patcher -/

/-- A settings document in which the hook is already registered (one
`UserPromptSubmit` entry whose command ends with the hook filename). -/
def installedDoc : List (String × Json) :=
  [("hooks", Json.obj [("UserPromptSubmit", Json.arr [hookEntryJson samplePath])])]

/-- A settings document carrying two registrations of the hook, i.e. one
that already violates the at-most-one invariant before patching. -/
def dupDoc : List (String × Json) :=
  [("hooks", Json.obj [("UserPromptSubmit",
    Json.arr [hookEntryJson samplePath, hookEntryJson samplePath])])]

/-- The spec's §8 scenario document: an unrelated `permissions` key plus a
`UserPromptSubmit` registration for a different script. -/
def otherEntry : Json :=
  Json.obj [("hooks", Json.arr
    [Json.obj [("type", Json.str "command"),
               ("command", Json.str "/proj/.claude/hooks/other-hook.sh")]])]

def scenarioDoc : List (String × Json) :=
  [("permissions", Json.obj [("allow", Json.arr [Json.str "Bash"])]),
   ("hooks", Json.obj [("UserPromptSubmit", Json.arr [otherEntry])])]

/-- C1, counterexample: on a settings file that exists but is not valid
JSON, `setupHook` does not fail with `SettingsCorrupt` and does not leave
the file's bytes unchanged — the parse error is swallowed (lines 58–63 of
`setup-hook.mjs`) and line 85 performs one settings write that replaces
the file with a fresh document holding only the new registration. -/
theorem c1_counterexample :
    settingsWrites (setupHook samplePath hookFilename
        (SettingsFile.invalid "this is not json")) =
      [[("hooks", Json.obj [("UserPromptSubmit",
          Json.arr [hookEntryJson samplePath])])]] ∧
    (settingsWrites (setupHook samplePath hookFilename
        (SettingsFile.invalid "this is not json"))).length ≠ 0 :=
  ⟨rfl, by decide⟩

/-- C1 (amended): when the settings file exists but is unparsable, the
patcher treats it as empty instead of failing: the run performs exactly
one settings write, whose document contains exactly one registration of
the hook.  No `SettingsCorrupt` error exists in the code. -/
theorem c1_theorem (hp fn raw : String) (hend : jsEndsWith hp fn = true) :
    settingsWrites (setupHook hp fn (SettingsFile.invalid raw)) =
      [patchSettingsObj hp fn []] ∧
    countMatching fn (patchSettingsObj hp fn []) = 1 := by
  refine ⟨rfl, countMatching_patch hp fn [] hend ?_⟩
  simp [countMatching, upsEntries, hooksObj, objGet]

theorem c1_witness :
    settingsWrites (setupHook samplePath hookFilename
        (SettingsFile.invalid "]]] corrupt")) =
      [patchSettingsObj samplePath hookFilename []] ∧
    countMatching hookFilename (patchSettingsObj samplePath hookFilename []) = 1 :=
  c1_theorem samplePath hookFilename "]]] corrupt" (by decide)

/-- C2, counterexample: with the hook already installed (the
already-installed scan matches, `countMatching = 1`), `setupHook` still
performs one settings write, not zero — the write on line 85 of
`setup-hook.mjs` is unconditional. -/
theorem c2_counterexample :
    countMatching hookFilename installedDoc = 1 ∧
    (settingsWrites (setupHook samplePath hookFilename
        (SettingsFile.valid installedDoc))).length = 1 := by
  constructor
  · decide
  · rfl

/-- Settings files on which the patch step of `setupHook` runs to
completion: a missing file, an unparsable file (both yield `settings =
{}`), or a file parsing to a well-formed document.  On a parsable but
malformed document (truthy non-object `hooks`, a `null` entry, a
non-string `command` value) the source throws a `TypeError` between the
hook-script write and the settings write, leaving zero settings writes —
those inputs are outside this predicate and outside the embedding. -/
def fileOk : SettingsFile → Bool
  | SettingsFile.absent => true
  | SettingsFile.invalid _ => true
  | SettingsFile.valid doc => wellFormedDoc doc

/-- C2 (amended): every invocation of `setupHook` whose settings file is
absent, unparsable, or well-formed performs exactly one settings-file
write — whether or not the hook was already registered — preceded by the
unconditional hook-script write.  The already-installed check only
prevents appending a duplicate entry, never the write. -/
theorem c2_theorem (hp fn : String) (file : SettingsFile)
    (_hok : fileOk file = true) :
    setupHook hp fn file =
      [WriteEvent.hookScript,
       WriteEvent.settings (patchSettingsObj hp fn (readSettings file))] ∧
    (settingsWrites (setupHook hp fn file)).length = 1 :=
  ⟨rfl, rfl⟩

theorem c2_witness :
    fileOk (SettingsFile.valid installedDoc) = true ∧
    (settingsWrites (setupHook samplePath hookFilename
        (SettingsFile.valid installedDoc))).length = 1 :=
  ⟨by decide,
   (c2_theorem samplePath hookFilename (SettingsFile.valid installedDoc)
      (by decide)).2⟩

/-- C3, counterexample: starting from a settings document that already
holds two registrations of the hook, both runs are no-ops and two
registrations remain — not exactly one, refuting the claim for arbitrary
starting documents. -/
theorem c3_counterexample :
    countMatching hookFilename
      (patchSettingsObj samplePath hookFilename
        (patchSettingsObj samplePath hookFilename dupDoc)) = 2 := by decide

/-- C3 (amended): the second application of the settings patch changes
nothing (patch ∘ patch = patch), and for every well-formed settings
document that respects the data-model invariant — at most one
registration whose command ends with the hook filename — two applications
leave exactly one such registration. -/
theorem c3_theorem (hp fn : String) (kvs : List (String × Json))
    (hend : jsEndsWith hp fn = true) (_hwf : wellFormedDoc kvs = true)
    (hle : countMatching fn kvs ≤ 1) :
    patchSettingsObj hp fn (patchSettingsObj hp fn kvs) =
      patchSettingsObj hp fn kvs ∧
    countMatching fn
      (patchSettingsObj hp fn (patchSettingsObj hp fn kvs)) = 1 := by
  refine ⟨patch_idem hp fn kvs hend, ?_⟩
  rw [patch_idem hp fn kvs hend]
  exact countMatching_patch hp fn kvs hend hle

theorem c3_witness :
    patchSettingsObj samplePath hookFilename
        (patchSettingsObj samplePath hookFilename scenarioDoc) =
      patchSettingsObj samplePath hookFilename scenarioDoc ∧
    countMatching hookFilename
      (patchSettingsObj samplePath hookFilename
        (patchSettingsObj samplePath hookFilename scenarioDoc)) = 1 :=
  c3_theorem samplePath hookFilename scenarioDoc (by decide) (by decide) (by decide)

/-- C4: on every well-formed settings document, the patch leaves every
top-level key other than `hooks` untouched, leaves every event key other
than `UserPromptSubmit` untouched, and either leaves the
`UserPromptSubmit` entries unchanged (already installed) or appends the
new registration as a separate trailing entry, preserving all
pre-existing entries. -/
theorem c4_theorem (hp fn : String) (kvs : List (String × Json))
    (_hwf : wellFormedDoc kvs = true) :
    (∀ k, k ≠ "hooks" → objGet (patchSettingsObj hp fn kvs) k = objGet kvs k) ∧
    (∀ ek, ek ≠ "UserPromptSubmit" →
      objGet (hooksObj (patchSettingsObj hp fn kvs)) ek =
        objGet (hooksObj kvs) ek) ∧
    upsEntries (patchSettingsObj hp fn kvs) =
      (if (upsEntries kvs).any (entryMatches fn) then upsEntries kvs
       else upsEntries kvs ++ [hookEntryJson hp]) := by
  refine ⟨?_, ?_, upsEntries_patch hp fn kvs⟩
  · intro k hk
    rw [patchSettingsObj_eq]
    exact objGet_objSet_ne kvs "hooks" k _ hk
  · intro ek hek
    rw [hooksObj_patch]
    exact objGet_objSet_ne (hooksObj kvs) "UserPromptSubmit" ek _ hek

theorem c4_witness :
    objGet (patchSettingsObj samplePath hookFilename scenarioDoc) "permissions" =
      objGet scenarioDoc "permissions" ∧
    upsEntries (patchSettingsObj samplePath hookFilename scenarioDoc) =
      [otherEntry, hookEntryJson samplePath] :=
  ⟨(c4_theorem samplePath hookFilename scenarioDoc (by decide)).1
      "permissions" (by decide),
   rfl⟩

/-! ## Catalog Client — `src/cli/lib/github.mjs`

`getAuthHeaders` (lines 8–33): `GITHUB_TOKEN || GH_TOKEN` first (an env
var set to the empty string is falsy and is skipped), then `gh auth
token` via `execSync` in a `try`/`catch` (missing binary, timeout and
non-zero exit all throw and are swallowed), used only when its trimmed
output is non-empty.  `fetchSkills` (lines 35–73): lists directories,
fetches each directory's `SKILL.md` concurrently via `Promise.all`,
turning a non-2xx response or a thrown network error into a logged
warning and a `null` result, and finally filters the `null`s out.
`parseFrontmatter` (lines 75–88): regex frontmatter extraction with
fallbacks.  Text is modelled as `List Char`. -/

/-- JS `\s` whitespace, restricted to the ASCII whitespace characters. -/
def isWs (c : Char) : Bool := c == ' ' || c == '\t' || c == '\n' || c == '\r'

/-- JS `String.prototype.trimStart`. -/
def trimStartL (l : List Char) : List Char := l.dropWhile isWs

/-- JS `String.prototype.trimEnd`. -/
def trimEndL (l : List Char) : List Char := (l.reverse.dropWhile isWs).reverse

/-- JS `String.prototype.trim`. -/
def jsTrim (l : List Char) : List Char := trimEndL (trimStartL l)

/-- Index of the first occurrence of `pat` in a list (the regex engine's
leftmost search for a literal), if any. -/
def findSub (pat : List Char) : List Char → Option Nat
  | [] => if pat.isEmpty then some 0 else none
  | c :: rest =>
    if pat.isPrefixOf (c :: rest) then some 0
    else (findSub pat rest).map (· + 1)

/-- The candidate lengths for the greedy `\s*` of the frontmatter regex
`^---\s*\n([\s\S]*?)\n---` after the literal `---`: every `k` whose
first `k` characters are whitespace and whose next character is `\n`,
largest (greediest) first. -/
def fmCandidates (after : List Char) : List Nat :=
  ((List.range (after.length + 1)).filter
    (fun k => (after.take k).all isWs && after.get? k == some '\n')).reverse

/-- `content.match` with the regex `^---\s*\n([\s\S]*?)\n---` (line 76):
anchored `---`,
then greedy-with-backtracking `\s*\n`, then the lazy capture up to the
first following `\n---`.  Returns the captured group. -/
def matchFrontmatter (content : List Char) : Option (List Char) :=
  if ("---".data).isPrefixOf content then
    let after := content.drop 3
    (fmCandidates after).findSome? (fun k =>
      match findSub ("\n---".data) (after.drop (k + 1)) with
      | some m => some ((after.drop (k + 1)).take m)
      | none => none)
  else none

/-- `block.match` with the multiline regex `^key\s*(.+)$` followed by
`?.[1]?.trim()` (lines
82–85): the first line of the block starting with `key` and holding at
least one further character matches; the captured group, trimmed, equals
the trimmed remainder of that line.  `none` when no line matches. -/
def keyLookup (key : List Char) (block : List Char) : Option (List Char) :=
  (block.splitOn '\n').findSome? (fun line =>
    if key.isPrefixOf line && decide (key.length < line.length) then
      some (jsTrim (line.drop key.length))
    else none)

/-- `parseFrontmatter(content, fallbackName)` (lines 75–88): the
`(name, description)` pair, falling back to `(fallbackName, "")` when the
frontmatter or the keys are missing, or when the extracted name trims to
the empty string (`|| fallbackName` on a falsy value). -/
def parseFrontmatter (content : List Char) (fallbackName : List Char) :
    List Char × List Char :=
  match matchFrontmatter content with
  | none => (fallbackName, [])
  | some block =>
    let name :=
      match keyLookup ("name:".data) block with
      | some t => if t.isEmpty then fallbackName else t
      | none => fallbackName
    let description :=
      match keyLookup ("description:".data) block with
      | some t => t
      | none => []
    (name, description)

/-- Outcome of the per-directory `fetch` of `SKILL.md` (lines 54–61):
a 2xx response with the body text, a non-2xx response, or a thrown
network-level error (from `fetch` or `r.text()`). -/
inductive FetchOutcome where
  | ok (body : List Char)
  | httpErr
  | netErr

def FetchOutcome.isOk : FetchOutcome → Bool
  | FetchOutcome.ok _ => true
  | _ => false

/-- One directory from the catalog listing, with the outcome its body
fetch will have. -/
structure DirEntry where
  name : List Char
  outcome : FetchOutcome

/-- The descriptor `{ dirName, name, description, content }` built on
line 64. -/
structure Skill where
  dirName : List Char
  name : List Char
  description : List Char
  content : List Char

def warnNoSkill (n : List Char) : List Char :=
  "  Warning: No SKILL.md found in ".data ++ n ++ ", skipping".data

def warnFailed (n : List Char) : List Char :=
  "  Warning: Failed to fetch ".data ++ n ++ ", skipping".data

/-- The async closure of lines 51–69 for one directory: its returned
value (`null` modelled as `none`) and the warnings it logs.  The
`try`/`catch` turns a non-2xx response and any thrown error alike into a
warning plus `null`; nothing escapes the closure. -/
def fetchDirLogged (d : DirEntry) : Option Skill × List (List Char) :=
  match d.outcome with
  | FetchOutcome.ok body =>
    let p := parseFrontmatter body d.name
    (some { dirName := d.name, name := p.1, description := p.2, content := body }, [])
  | FetchOutcome.httpErr => (none, [warnNoSkill d.name])
  | FetchOutcome.netErr => (none, [warnFailed d.name])

/-- `fetchSkills` after the directory listing (lines 50–72):
`Promise.all` keeps one result slot per directory in listing order;
`results.filter(Boolean)` drops the `null`s.  Returns the descriptor
list and the logged warnings. -/
def fetchSkills (dirs : List DirEntry) : List Skill × List (List Char) :=
  ((dirs.map (fun d => (fetchDirLogged d).1)).filterMap id,
   (dirs.map (fun d => (fetchDirLogged d).2)).flatten)

/-- Directories whose body fetch fails (non-2xx or network error). -/
def failCount (dirs : List DirEntry) : Nat :=
  (dirs.filter (fun d => ! d.outcome.isOk)).length

/-- One completion step of the concurrent fan-out: task `i` finishes and
`Promise.all` stores its value at slot `i` (out-of-range indices are
impossible for a real schedule and leave the slots unchanged). -/
def promiseAllStep (dirs : List DirEntry)
    (slots : List (Option (Option Skill))) (i : Nat) :
    List (Option (Option Skill)) :=
  match dirs.get? i with
  | some d => slots.set i (some (fetchDirLogged d).1)
  | none => slots

/-- The `Promise.all(dirs.map(...))` of lines 50–70 under an arbitrary
completion schedule `sched` (the order in which the concurrent fetches
finish): each completed task writes its result into its own slot. -/
def promiseAllSched (dirs : List DirEntry) (sched : List Nat) :
    List (Option (Option Skill)) :=
  sched.foldl (promiseAllStep dirs) (List.replicate dirs.length none)

/-- The two environment variables read on line 12, each `none` when unset. -/
structure Env where
  githubToken : Option String
  ghToken : Option String

/-- Outcome of `execSync("gh auth token", ...)` (lines 20–24): the
captured stdout, or `failure` for every way the call can throw — missing
binary, timeout, non-zero exit (all are caught by the surrounding
`try`/`catch`, lines 19–30). -/
inductive GhCliResult where
  | ok (out : String)
  | failure

/-- The headers object built by `getAuthHeaders`. -/
structure Headers where
  userAgent : String
  authorization : Option String

/-- JS truthiness of an env-var string: unset and the empty string are
falsy. -/
def truthyEnv : Option String → Option String
  | some t => if t = "" then none else some t
  | none => none

/-- `process.env.GITHUB_TOKEN || process.env.GH_TOKEN` (line 12), up to
the truthiness that is all line 13 observes. -/
def jsOrStr (a b : Option String) : Option String :=
  match truthyEnv a with
  | some t => some t
  | none => truthyEnv b

/-- JS `String.prototype.trim` on a `String`. -/
def jsTrimString (s : String) : String := String.mk (jsTrim s.data)

/-- `getAuthHeaders` (lines 8–33): env token first, then the `gh` CLI
token when its trimmed output is non-empty, otherwise anonymous headers;
the function never throws (the only throwing call sits in a
`try`/`catch`). -/
def getAuthHeaders (e : Env) (gh : GhCliResult) : Headers :=
  let headers : Headers := { userAgent := "claude-skills-cli", authorization := none }
  match jsOrStr e.githubToken e.ghToken with
  | some t => { headers with authorization := some ("Bearer " ++ t) }
  | none =>
    match gh with
    | GhCliResult.ok out =>
      let token := jsTrimString out
      if token = "" then headers
      else { headers with authorization := some ("Bearer " ++ token) }
    | GhCliResult.failure => headers

/-! ## Claims C5, C6, C8, C9 — the Catalog Client -/

/-- C5: for every catalog listing with `N` directories of which `M` have
failing body fetches, `fetchSkills` returns exactly `N − M` descriptors
and logs exactly `M` warnings; the per-directory `try`/`catch` keeps
every failure local, so the operation never raises for a partial
failure (the embedding is a total function). -/
theorem c5_theorem (dirs : List DirEntry) :
    (fetchSkills dirs).1.length = dirs.length - failCount dirs ∧
    (fetchSkills dirs).2.length = failCount dirs ∧
    failCount dirs ≤ dirs.length := by
  have key : (fetchSkills dirs).1.length + failCount dirs = dirs.length ∧
      (fetchSkills dirs).2.length = failCount dirs := by
    induction dirs with
    | nil => simp [fetchSkills, failCount]
    | cons d rest ih =>
      have h1 := ih.1
      have h2 := ih.2
      cases hd : d.outcome
      all_goals simp [fetchSkills, failCount, fetchDirLogged, hd,
        FetchOutcome.isOk] at h1 h2 ⊢
      all_goals omega
  exact ⟨by omega, key.2, by omega⟩

theorem promiseAll_foldl_length (dirs : List DirEntry) (sched : List Nat)
    (slots : List (Option (Option Skill))) :
    (sched.foldl (promiseAllStep dirs) slots).length = slots.length := by
  induction sched generalizing slots with
  | nil => rfl
  | cons i rest ih =>
    rw [List.foldl_cons, ih]
    unfold promiseAllStep
    cases dirs.get? i <;> simp

theorem promiseAll_foldl_not_mem (dirs : List DirEntry) (sched : List Nat)
    (slots : List (Option (Option Skill))) (j : Nat) (hj : j ∉ sched) :
    (sched.foldl (promiseAllStep dirs) slots).get? j = slots.get? j := by
  induction sched generalizing slots with
  | nil => rfl
  | cons i rest ih =>
    rw [List.foldl_cons, ih _ (fun h => hj (List.mem_cons_of_mem _ h))]
    unfold promiseAllStep
    cases hd : dirs.get? i with
    | none => rfl
    | some d =>
      exact List.get?_set_ne _ _ (fun h => hj (h ▸ List.mem_cons_self i rest))

theorem promiseAll_foldl_mem (dirs : List DirEntry) (sched : List Nat)
    (j : Nat) (d : DirEntry) (hd : dirs.get? j = some d) (hj : j ∈ sched) :
    ∀ slots : List (Option (Option Skill)), slots.length = dirs.length →
      (sched.foldl (promiseAllStep dirs) slots).get? j =
        some (some (fetchDirLogged d).1) := by
  induction sched with
  | nil => exact absurd hj (List.not_mem_nil j)
  | cons i rest ih =>
    intro slots hlen
    rw [List.foldl_cons]
    by_cases hjr : j ∈ rest
    · apply ih hjr
      unfold promiseAllStep
      cases dirs.get? i <;> simp [hlen]
    · have hij : i = j := by
        rcases List.mem_cons.mp hj with h | h
        · exact h.symm
        · exact absurd h hjr
      subst hij
      rw [promiseAll_foldl_not_mem dirs rest _ _ hjr]
      unfold promiseAllStep
      rw [hd]
      apply List.get?_set_eq_of_lt
      rw [hlen]
      obtain ⟨hlt, -⟩ := List.get?_eq_some.mp hd
      exact hlt

/-- C6: under every completion schedule of the concurrent per-directory
fetches (any permutation of the task indices), the `Promise.all` result
vector equals the in-listing-order map, and therefore the returned
descriptor list (`nulls` filtered out) is exactly the successful
directories in listing order — concurrency never changes the order. -/
theorem c6_theorem (dirs : List DirEntry) (sched : List Nat)
    (hperm : sched.Perm (List.range dirs.length)) :
    promiseAllSched dirs sched =
      dirs.map (fun d => some (fetchDirLogged d).1) ∧
    ((promiseAllSched dirs sched).filterMap id).filterMap id =
      (fetchSkills dirs).1 := by
  have hmain : promiseAllSched dirs sched =
      dirs.map (fun d => some (fetchDirLogged d).1) := by
    apply List.ext_get?
    intro j
    by_cases hj : j < dirs.length
    · obtain ⟨d, hd⟩ : ∃ d, dirs.get? j = some d := by
        cases hdd : dirs.get? j with
        | none => rw [List.get?_eq_none] at hdd; omega
        | some d => exact ⟨d, rfl⟩
      have hjm : j ∈ sched := (hperm.mem_iff).mpr (List.mem_range.mpr hj)
      rw [promiseAllSched,
        promiseAll_foldl_mem dirs sched j d hd hjm _ (by simp),
        List.get?_map, hd]
      rfl
    · have h1 : (promiseAllSched dirs sched).get? j = none := by
        rw [List.get?_eq_none, promiseAllSched, promiseAll_foldl_length]
        simp only [List.length_replicate]
        omega
      have h2 : (dirs.map (fun d => some (fetchDirLogged d).1)).get? j = none := by
        rw [List.get?_eq_none, List.length_map]
        omega
      rw [h1, h2]
  refine ⟨hmain, ?_⟩
  have hR : (fetchSkills dirs).1 =
      List.filterMap (fun d => (fetchDirLogged d).1) dirs := by
    rw [fetchSkills]
    rw [List.filterMap_map]
    rfl
  rw [hmain, hR, List.filterMap_map, List.filterMap_filterMap]
  rfl

/-- A three-directory listing: two successes around one failing fetch. -/
def sampleDirs : List DirEntry :=
  [{ name := "alpha".data, outcome := FetchOutcome.ok "hello".data },
   { name := "beta".data, outcome := FetchOutcome.httpErr },
   { name := "gamma".data, outcome := FetchOutcome.ok "world".data }]

theorem c6_witness :
    promiseAllSched sampleDirs [2, 0, 1] =
      sampleDirs.map (fun d => some (fetchDirLogged d).1) ∧
    ((promiseAllSched sampleDirs [2, 0, 1]).filterMap id).filterMap id =
      (fetchSkills sampleDirs).1 :=
  c6_theorem sampleDirs [2, 0, 1] (by decide)

/-- C8: when the body's frontmatter is missing or unparsable,
`parseFrontmatter` returns the directory name and the empty description,
and the directory still yields a descriptor (it is not skipped); likewise
when the frontmatter parses but the `name`/`description` keys are
absent. -/
theorem c8_theorem (nm body : List Char) :
    (matchFrontmatter body = none →
      parseFrontmatter body nm = (nm, []) ∧
      fetchDirLogged { name := nm, outcome := FetchOutcome.ok body } =
        (some { dirName := nm, name := nm, description := [],
                content := body }, [])) ∧
    (∀ block, matchFrontmatter body = some block →
      keyLookup ("name:".data) block = none →
      keyLookup ("description:".data) block = none →
      parseFrontmatter body nm = (nm, [])) := by
  constructor
  · intro h
    have hp : parseFrontmatter body nm = (nm, []) := by
      simp [parseFrontmatter, h]
    exact ⟨hp, by simp [fetchDirLogged, hp]⟩
  · intro block hb h1 h2
    simp [parseFrontmatter, hb, h1, h2]

theorem c8_witness :
    parseFrontmatter ("no frontmatter here".data) ("my-skill".data) =
      ("my-skill".data, []) ∧
    fetchDirLogged { name := "my-skill".data,
                     outcome := FetchOutcome.ok ("no frontmatter here".data) } =
      (some { dirName := "my-skill".data, name := "my-skill".data,
              description := [], content := "no frontmatter here".data }, []) :=
  (c8_theorem ("my-skill".data) ("no frontmatter here".data)).1 (by decide)

/-- C9, counterexample: with `GITHUB_TOKEN` *set* to the empty string and
`GH_TOKEN` set to a real token, the code uses `GH_TOKEN` — an empty env
var is falsy and loses, so "the first of the two accepted names that is
set" does not win as the claim states. -/
theorem c9_counterexample :
    (getAuthHeaders { githubToken := some "", ghToken := some "tok123" }
        GhCliResult.failure).authorization = some "Bearer tok123" := rfl

/-- C9 (amended): credential resolution priority is: first of the two
env vars that is set to a *non-empty* string; else the CLI token when the
lookup succeeds with non-empty trimmed output; else anonymous.  Every CLI
failure (missing binary, timeout, non-zero exit) and an empty CLI output
yield anonymous headers; the resolution never raises (it is a total
function, the source wrapping the only throwing call in `try`/`catch`). -/
theorem c9_theorem (e : Env) (gh : GhCliResult) :
    (getAuthHeaders e gh).userAgent = "claude-skills-cli" ∧
    (∀ t, e.githubToken = some t → t ≠ "" →
      (getAuthHeaders e gh).authorization = some ("Bearer " ++ t)) ∧
    (∀ u, (e.githubToken = none ∨ e.githubToken = some "") →
      e.ghToken = some u → u ≠ "" →
      (getAuthHeaders e gh).authorization = some ("Bearer " ++ u)) ∧
    (∀ out, jsOrStr e.githubToken e.ghToken = none → gh = GhCliResult.ok out →
      (getAuthHeaders e gh).authorization =
        (if jsTrimString out = "" then none
         else some ("Bearer " ++ jsTrimString out))) ∧
    (jsOrStr e.githubToken e.ghToken = none → gh = GhCliResult.failure →
      (getAuthHeaders e gh).authorization = none) := by
  refine ⟨?_, ?_, ?_, ?_, ?_⟩
  · cases h : jsOrStr e.githubToken e.ghToken <;> cases gh <;>
      simp [getAuthHeaders, h] <;> split <;> rfl
  · intro t ht hne
    simp [getAuthHeaders, jsOrStr, truthyEnv, ht, hne]
  · intro u hgt hu hune
    rcases hgt with h | h <;>
      simp [getAuthHeaders, jsOrStr, truthyEnv, h, hu, hune]
  · intro out hnone hok
    subst hok
    simp only [getAuthHeaders, hnone]
    by_cases hc : jsTrimString out = "" <;> simp [hc]
  · intro hnone hfail
    subst hfail
    simp [getAuthHeaders, hnone]

theorem c9_witness :
    (getAuthHeaders { githubToken := some "abc", ghToken := some "zzz" }
        GhCliResult.failure).authorization = some ("Bearer " ++ "abc") :=
  (c9_theorem { githubToken := some "abc", ghToken := some "zzz" }
    GhCliResult.failure).2.1 "abc" rfl (by decide)

/-! ## Instruction Document Patcher — `setupClaudeMd`, `src/unnamed/part_007`

`setupClaudeMd` (lines 17–42): read `CLAUDE.md` (absence → empty), no-op
when the document already `includes` the marker `"skill_evaluation:"`,
otherwise append the fixed rule block after trimming trailing whitespace
and write the result.  Documents are `List Char`. -/

/-- `MARKER` (line 15). -/
def MARKER : List Char := "skill_evaluation:".data

/-- `SKILL_EVAL_BLOCK` (lines 4–13): the template literal, starting with
the newline right after the backtick and ending after `WRONG.`. -/
def SKILL_EVAL_BLOCK : List Char :=
  ("\nskill_evaluation:\n  mandatory: true\n  rule: |\n    BEFORE writing ANY code, you MUST:\n    1. List EVERY skill from the system-reminder\x27s available skills section\n    2. For each skill, write: [skill-name] → ACTIVATE / SKIP — [one-line reason]\n    3. Call Skill(name) for every skill marked ACTIVATE\n    4. Only THEN proceed to implementation\n    If you skip this evaluation, your response is INCOMPLETE and WRONG.").data

/-- JS `s.includes(pat)`: `pat` occurs somewhere in `s`. -/
def jsIncludes (s pat : List Char) : Bool :=
  match s with
  | [] => pat.isEmpty
  | c :: rest => pat.isPrefixOf (c :: rest) || jsIncludes rest pat

/-- Number of (possibly overlapping) occurrences of the non-empty pattern
`pat` in a list: one per start position at which `pat` is a prefix of the
remaining suffix. -/
def occCount (pat : List Char) : List Char → Nat
  | [] => 0
  | c :: rest => (if pat.isPrefixOf (c :: rest) then 1 else 0) + occCount pat rest

/-- `setupClaudeMd` (lines 17–42) as a function from the current document
to the written content (`none` when the marker is found and the function
returns without writing, lines 29–32). -/
def setupClaudeMd (existing : List Char) : Option (List Char) :=
  if jsIncludes existing MARKER then none
  else
    let trimmed := trimEndL existing
    some (if trimmed.length > 0 then
            trimmed ++ "\n".data ++ SKILL_EVAL_BLOCK ++ "\n".data
          else trimStartL SKILL_EVAL_BLOCK ++ "\n".data)

/-- The document after one run: the written content, or the unchanged
document when the run was a no-op. -/
def applyPatch (doc : List Char) : List Char := (setupClaudeMd doc).getD doc

theorem jsIncludes_iff_occCount (s pat : List Char) (hp : pat ≠ []) :
    jsIncludes s pat = true ↔ occCount pat s ≠ 0 := by
  induction s with
  | nil => simp [jsIncludes, occCount, List.isEmpty_iff, hp]
  | cons c rest ih =>
    by_cases hpre : pat.isPrefixOf (c :: rest) = true
    · simp [jsIncludes, occCount, hpre]
    · simp only [jsIncludes, occCount, Bool.or_eq_true]
      rw [if_neg hpre]
      simp [hpre, ih]

theorem isPrefixOf_append_cons (pat : List Char) (c : Char) (hc : c ∉ pat) :
    ∀ x b : List Char, pat.isPrefixOf (x ++ c :: b) = pat.isPrefixOf x := by
  induction pat with
  | nil => intro x b; simp [List.isPrefixOf]
  | cons p ps ih =>
    intro x b
    cases x with
    | nil =>
      have hne : (p == c) = false := by
        simp only [beq_eq_false_iff_ne, ne_eq]
        intro h
        exact hc (h ▸ List.mem_cons_self p ps)
      simp [List.isPrefixOf, hne]
    | cons d x' =>
      have hc' : c ∉ ps := fun h => hc (List.mem_cons_of_mem p h)
      simp [List.isPrefixOf, ih hc' x' b]

theorem occCount_append_cons (pat a b : List Char) (c : Char) (hc : c ∉ pat) :
    occCount pat (a ++ c :: b) = occCount pat a + occCount pat (c :: b) := by
  induction a with
  | nil => simp [occCount]
  | cons d a' ih =>
    rw [show ((d :: a') ++ c :: b) = d :: (a' ++ c :: b) from
      List.cons_append d a' (c :: b)]
    rw [show occCount pat (d :: (a' ++ c :: b)) =
        (if pat.isPrefixOf (d :: (a' ++ c :: b)) then 1 else 0) +
          occCount pat (a' ++ c :: b) from rfl]
    rw [ih]
    rw [show occCount pat (d :: a') =
        (if pat.isPrefixOf (d :: a') then 1 else 0) + occCount pat a' from rfl]
    have h1 : pat.isPrefixOf (d :: (a' ++ c :: b)) = pat.isPrefixOf (d :: a') := by
      have h2 := isPrefixOf_append_cons pat c hc (d :: a') b
      rwa [List.cons_append] at h2
    rw [h1]
    omega

theorem isPrefixOf_append_of (pat : List Char) :
    ∀ x r : List Char, pat.isPrefixOf x = true → pat.isPrefixOf (x ++ r) = true := by
  induction pat with
  | nil => intro x r _; simp [List.isPrefixOf]
  | cons p ps ih =>
    intro x r h
    cases x with
    | nil => simp [List.isPrefixOf] at h
    | cons d x' =>
      simp only [List.isPrefixOf, Bool.and_eq_true] at h ⊢
      exact ⟨h.1, ih x' r h.2⟩

theorem occCount_le_append (pat t r : List Char) :
    occCount pat t ≤ occCount pat (t ++ r) := by
  induction t with
  | nil => simp [occCount]
  | cons d t' ih =>
    rw [show ((d :: t') ++ r) = d :: (t' ++ r) from List.cons_append d t' r]
    rw [show occCount pat (d :: (t' ++ r)) =
        (if pat.isPrefixOf (d :: (t' ++ r)) then 1 else 0) +
          occCount pat (t' ++ r) from rfl]
    rw [show occCount pat (d :: t') =
        (if pat.isPrefixOf (d :: t') then 1 else 0) + occCount pat t' from rfl]
    have hite : (if pat.isPrefixOf (d :: t') then (1 : Nat) else 0) ≤
        (if pat.isPrefixOf (d :: (t' ++ r)) then 1 else 0) := by
      by_cases h : pat.isPrefixOf (d :: t') = true
      · have h2 : pat.isPrefixOf (d :: (t' ++ r)) = true := by
          have h3 := isPrefixOf_append_of pat (d :: t') r h
          rwa [List.cons_append] at h3
        rw [if_pos h, if_pos h2]
      · simp [h]
    omega

theorem trimEndL_append (l : List Char) :
    trimEndL l ++ (l.reverse.takeWhile isWs).reverse = l := by
  rw [trimEndL, ← List.reverse_append, List.takeWhile_append_dropWhile,
    List.reverse_reverse]

theorem occCount_trimEndL_eq_zero (pat l : List Char)
    (h : occCount pat l = 0) : occCount pat (trimEndL l) = 0 := by
  have h1 := occCount_le_append pat (trimEndL l) ((l.reverse.takeWhile isWs).reverse)
  rw [trimEndL_append] at h1
  omega

/-! ## Claims C7, C10 — the Instruction Document Patcher -/

/-- A document mentioning the marker substring twice in prose. -/
def proseDoc : List Char :=
  "Notes: skill_evaluation: is discussed twice; see skill_evaluation: above.".data

/-- C7, counterexample: a document that already contains the marker
substring twice makes both runs no-ops, so two occurrences remain — not
exactly one, refuting the claim for arbitrary starting documents. -/
theorem c7_counterexample :
    setupClaudeMd proseDoc = none ∧
    occCount MARKER (applyPatch (applyPatch proseDoc)) = 2 := by
  constructor
  · decide
  · decide

/-- C7 (amended): starting from any document with no occurrence of the
marker, patching twice yields a document with exactly one occurrence, and
the second run finds the marker and returns without writing.  (When the
marker is already present, the operation returns without writing — see
`c10_theorem` — but pre-existing occurrences are kept, so "exactly one"
holds only for marker-free starting documents.) -/
theorem c7_theorem (doc : List Char) (h : occCount MARKER doc = 0) :
    occCount MARKER (applyPatch (applyPatch doc)) = 1 ∧
    setupClaudeMd (applyPatch doc) = none := by
  have hinc : jsIncludes doc MARKER = false := by
    cases hb : jsIncludes doc MARKER with
    | false => rfl
    | true =>
      have h2 := (jsIncludes_iff_occCount doc MARKER (by decide)).mp hb
      omega
  have hsome : setupClaudeMd doc =
      some (if (trimEndL doc).length > 0 then
              trimEndL doc ++ "\n".data ++ SKILL_EVAL_BLOCK ++ "\n".data
            else trimStartL SKILL_EVAL_BLOCK ++ "\n".data) := by
    rw [setupClaudeMd, if_neg (by simp [hinc])]
  have h1 : occCount MARKER (applyPatch doc) = 1 := by
    rw [applyPatch, hsome, Option.getD_some]
    by_cases ht : (trimEndL doc).length > 0
    · rw [if_pos ht]
      have hnl : ("\n".data : List Char) = ['\n'] := by decide
      rw [hnl, List.append_assoc, List.append_assoc, List.singleton_append]
      rw [occCount_append_cons MARKER (trimEndL doc)
        (SKILL_EVAL_BLOCK ++ ['\n']) '\n' (by decide)]
      rw [occCount_trimEndL_eq_zero MARKER doc h]
      decide
    · rw [if_neg ht]
      decide
  have hinc2 : jsIncludes (applyPatch doc) MARKER = true :=
    (jsIncludes_iff_occCount (applyPatch doc) MARKER (by decide)).mpr (by omega)
  have hnone : setupClaudeMd (applyPatch doc) = none := by
    rw [setupClaudeMd, if_pos hinc2]
  refine ⟨?_, hnone⟩
  rw [show applyPatch (applyPatch doc) =
      (setupClaudeMd (applyPatch doc)).getD (applyPatch doc) from rfl,
    hnone, Option.getD_none]
  exact h1

theorem c7_witness :
    occCount MARKER (applyPatch (applyPatch ("# My project".data))) = 1 ∧
    setupClaudeMd (applyPatch ("# My project".data)) = none :=
  c7_theorem ("# My project".data) (by decide)

/-- A document carrying the marker substring in unrelated prose. -/
def markedDoc : List Char := "see the skill_evaluation: marker in the docs".data

/-- C10: whenever the document contains the marker substring anywhere —
in any context — `setupClaudeMd` returns without writing, and any number
of repeated runs leave the document unchanged: the rule block is never
appended. -/
theorem c10_theorem (doc : List Char) (h : jsIncludes doc MARKER = true) :
    setupClaudeMd doc = none ∧ ∀ n, applyPatch^[n] doc = doc := by
  have h0 : setupClaudeMd doc = none := by
    rw [setupClaudeMd, if_pos h]
  refine ⟨h0, ?_⟩
  intro n
  induction n with
  | zero => rfl
  | succ m ih =>
    rw [Function.iterate_succ_apply', ih, applyPatch, h0, Option.getD_none]

theorem c10_witness :
    setupClaudeMd markedDoc = none ∧ applyPatch^[3] markedDoc = markedDoc :=
  ⟨(c10_theorem markedDoc (by decide)).1, (c10_theorem markedDoc (by decide)).2 3⟩
